import Mathlib

/-!
Verification of the UTXO runtime module (`src/runtime/src/utxo.rs`).

The module's state is three storage items: the map of unspent transaction
outputs, the dust accumulator (`DustTotal`), and the map of locked outputs.
Machine integers (`u128` values, `u64` salts and block numbers) are embedded
as `Nat` with explicit bounds where overflow matters; the Substrate storage
maps are embedded as association lists with insert-overwrites semantics.

The Blake2 digest of an output (`BlakeTwo256::hash_of`) and ed25519
signatures are external collaborators of the module; they are embedded as
injective constructors, modelling a collision-free hash and an unforgeable
signature scheme.
-/

namespace Utxo

/-- Bound of the `u128` type: `Value = u128` in the source. -/
def u128Max : Nat := 2 ^ 128

/-- Representation of UTXO value (`pub type Value = u128`). -/
abbrev Value := Nat

/-- Digests (`H256`). `hashOf v k s` is the Blake2-256 digest of the
`TransactionOutput` record with fields `(v, k, s)`; `raw n` is any other
256-bit string (genesis keys, arbitrary lock-table keys). The constructor
embedding models the hash as collision-free. -/
inductive H256 where
  | raw (n : Nat)
  | hashOf (value : Value) (pubkey : H256) (salt : Nat)
deriving DecidableEq

/-- Single transaction output to create upon transaction dispatch. -/
structure TransactionOutput where
  /-- Value associated with this output. -/
  value : Value
  /-- Public key associated with this output. -/
  pubkey : H256
  /-- Unique (potentially random) value distinguishing this output. -/
  salt : Nat
deriving DecidableEq

/-- `BlakeTwo256::hash_of` applied to a `TransactionOutput`. -/
def hash_of (o : TransactionOutput) : H256 :=
  H256.hashOf o.value o.pubkey o.salt

/-- Signatures (`H512`): either an arbitrary 512-bit string or a signature
by the holder of `pubkey` over `msg`. -/
inductive H512 where
  | raw (n : Nat)
  | signed (pubkey : H256) (msg : H256)
deriving DecidableEq

/-- Representation of signatures (`type Signature = H512`). -/
abbrev Signature := H512

/-- Modelled from the spec: `runtime_io::ed25519_verify`, the external
signature-verification collaborator (spec section 2). A signature verifies
against `pubkey` over `msg` exactly when it was produced by the key holder. -/
def ed25519_verify (sig : Signature) (msg : H256) (pubkey : H256) : Bool :=
  sig = H512.signed pubkey msg

/-- Single transaction input that refers to one UTXO. -/
structure TransactionInput where
  /-- Reference to an UTXO to be spent. -/
  parent_output : H256
  /-- Proof that the transaction owner is authorized to spend the UTXO. -/
  signature : Signature
deriving DecidableEq

/-- Single transaction to be dispatched. -/
structure Transaction where
  inputs : List TransactionInput
  outputs : List TransactionOutput
deriving DecidableEq

/-- A UTXO can be locked indefinitely or until a certain block height
(`LockStatus<BlockNumber>` with `BlockNumber = u64`). -/
inductive LockStatus where
  | Locked
  | LockedUntil (height : Nat)
deriving DecidableEq

/-- Lookup in an association-list storage map. -/
def mapGet {α : Type} (m : List (H256 × α)) (k : H256) : Option α :=
  match m with
  | [] => none
  | (k1, v) :: rest => if k1 = k then some v else mapGet rest k

/-- `StorageMap::remove`. -/
def mapRemove {α : Type} (m : List (H256 × α)) (k : H256) : List (H256 × α) :=
  match m with
  | [] => []
  | (k1, v) :: rest =>
    if k1 = k then mapRemove rest k else (k1, v) :: mapRemove rest k

/-- `StorageMap::insert` (overwrites any existing entry). -/
def mapInsert {α : Type} (m : List (H256 × α)) (k : H256) (v : α) :
    List (H256 × α) :=
  (k, v) :: mapRemove m k

/-- The module's storage (`decl_storage!`) together with the current block
number of the surrounding system module. -/
structure State where
  /-- `UnspentOutputs: map H256 => Option<TransactionOutput>`. -/
  unspentOutputs : List (H256 × TransactionOutput)
  /-- `DustTotal: Value`, the leftover value accumulated during block
  execution and drained on finalization. -/
  dustTotal : Value
  /-- `LockedOutputs: map H256 => Option<LockStatus>`. -/
  lockedOutputs : List (H256 × LockStatus)
  /-- `system::Module::block_number()`. -/
  blockNumber : Nat
deriving DecidableEq

/-- `u128::checked_add`. -/
def checked_add (a b : Value) : Option Value :=
  if a + b < u128Max then some (a + b) else none

/-- `u128::checked_div`: `none` exactly on division by zero. -/
def checked_div (a b : Value) : Option Value :=
  if b = 0 then none else some (a / b)

/-- `u128::checked_sub`: `none` exactly on underflow. -/
def checked_sub (a b : Value) : Option Value :=
  if b ≤ a then some (a - b) else none

/-- Error taxonomy of transaction verification (spec section 7; the source
reports these as `&'static str` messages). -/
inductive ValidationError where
  | EmptyInputs
  | EmptyOutputs
  | DuplicateInput
  | DuplicateOutput
  | MissingInput (digest : H256)
  | OutputLocked (digest : H256)
  | InvalidSignature (digest : H256)
  | InputOverflow
  | ZeroValueOutput
  | OutputOverflow
  | Overspend
deriving DecidableEq

/-- Error of `update_storage` (the source string is `Dust overflow`). -/
inductive StorageError where
  | DustOverflow
deriving DecidableEq

/-- Errors of `lock_utxo` and `unlock_utxo` (source strings:
`utxo is already locked`, `utxo does not exist`,
`block number is in the past`, `utxo is not locked`). -/
inductive LockError where
  | AlreadyLocked
  | NotFound
  | PastBlockHeight
  | NotLocked
deriving DecidableEq

/-- Error of the `execute` dispatchable: a verification failure or the
defensive dust-accumulator overflow check of `update_storage`. -/
inductive ExecError where
  | Validation (e : ValidationError)
  | DustOverflow
deriving DecidableEq

/-- Spendability of a digest under its lock entry at the given height
(spec section 4.4): no entry is spendable, `Locked` never is, and
`LockedUntil h` is spendable once the height is strictly greater than `h`. -/
def spendableAt (height : Nat) (lock : Option LockStatus) : Bool :=
  match lock with
  | none => true
  | some LockStatus.Locked => false
  | some (LockStatus.LockedUntil h) => decide (height > h)

/-- Modelled from the spec: the per-input pass of verification (spec
section 4.1, step 5) — `verify_transaction` is left as a `TODO` stub in
`src/runtime/src/utxo.rs` (lines 157-163), so its body is reconstructed
from spec section 4.1 and the test scenarios. Each input must resolve to a
live output, be spendable under the lock table, and carry a signature that
verifies against the referenced output's key over the input's unsigned
bytes; values accumulate with checked addition. -/
def inputTotals (s : State) : List TransactionInput → Value →
    Except ValidationError Value
  | [], acc => Except.ok acc
  | inp :: rest, acc =>
    match mapGet s.unspentOutputs inp.parent_output with
    | none => Except.error (ValidationError.MissingInput inp.parent_output)
    | some out =>
      if spendableAt s.blockNumber (mapGet s.lockedOutputs inp.parent_output)
      then
        if ed25519_verify inp.signature inp.parent_output out.pubkey then
          match checked_add acc out.value with
          | none => Except.error ValidationError.InputOverflow
          | some acc1 => inputTotals s rest acc1
        else Except.error (ValidationError.InvalidSignature inp.parent_output)
      else Except.error (ValidationError.OutputLocked inp.parent_output)

/-- Modelled from the spec: the per-output pass of verification (spec
section 4.1, step 6). Each output value must be nonzero and values
accumulate with checked addition. -/
def outputTotals : List TransactionOutput → Value →
    Except ValidationError Value
  | [], acc => Except.ok acc
  | out :: rest, acc =>
    if out.value = 0 then Except.error ValidationError.ZeroValueOutput
    else
      match checked_add acc out.value with
      | none => Except.error ValidationError.OutputOverflow
      | some acc1 => outputTotals rest acc1

/-- Modelled from the spec: verification steps 1-6 of spec section 4.1
(everything except the final conservation check), computing the input and
output totals of a candidate transaction. -/
def computeTotals (s : State) (tx : Transaction) :
    Except ValidationError (Value × Value) :=
  if tx.inputs = [] then Except.error ValidationError.EmptyInputs
  else if tx.outputs = [] then Except.error ValidationError.EmptyOutputs
  else if ¬ (tx.inputs.map TransactionInput.parent_output).Nodup then
    Except.error ValidationError.DuplicateInput
  else if ¬ (tx.outputs.map hash_of).Nodup then
    Except.error ValidationError.DuplicateOutput
  else
    match inputTotals s tx.inputs 0 with
    | Except.error e => Except.error e
    | Except.ok input =>
      match outputTotals tx.outputs 0 with
      | Except.error e => Except.error e
      | Except.ok output => Except.ok (input, output)

/-- Modelled from the spec: `verify_transaction` — a `TODO` stub in the
source (`src/runtime/src/utxo.rs` lines 157-163), reconstructed from spec
section 4.1 and the test scenarios of the module. After steps 1-6, the
output total must not exceed the input total (step 7, `Overspend`). -/
def verify_transaction (s : State) (tx : Transaction) :
    Except ValidationError (Value × Value) :=
  match computeTotals s tx with
  | Except.error e => Except.error e
  | Except.ok (input, output) =>
    if output ≤ input then Except.ok (input, output)
    else Except.error ValidationError.Overspend

/-- One step of the input loop of `update_storage`:
`<UnspentOutputs<T>>::remove(input.parent_output)`. -/
def removeInput (s : State) (inp : TransactionInput) : State :=
  { s with unspentOutputs := mapRemove s.unspentOutputs inp.parent_output }

/-- One step of the output loop of `update_storage`:
`<UnspentOutputs<T>>::insert(BlakeTwo256::hash_of(output), output)`. -/
def insertOutput (s : State) (out : TransactionOutput) : State :=
  { s with unspentOutputs :=
      mapInsert s.unspentOutputs (hash_of out) out }

/-- `update_storage` (source lines 202-221): add the dust to the
accumulator with checked addition, failing `Dust overflow` before any
write; then remove every input's parent output and insert every new output
keyed by its digest. The returned state is the storage as left by the
call: on the error path it is the unchanged input state, since the `?`
return precedes every write. -/
def update_storage (tx : Transaction) (dust : Value) (s : State) :
    Except StorageError Unit × State :=
  match checked_add s.dustTotal dust with
  | none => (Except.error StorageError.DustOverflow, s)
  | some dust_total =>
    let s1 := { s with dustTotal := dust_total }
    let s2 := tx.inputs.foldl removeInput s1
    let s3 := tx.outputs.foldl insertOutput s2
    (Except.ok (), s3)

/-- The `execute` dispatchable (source lines 110-126): verify the
transaction (the privileged-origin check `ensure_inherent` is framework
glue and the call is assumed privileged), derive the dust as
`input - output`, and commit through `update_storage`. Verification is the
spec-modelled `verify_transaction` above. -/
def execute (s : State) (tx : Transaction) : Except ExecError State :=
  match verify_transaction s tx with
  | Except.error e => Except.error (ExecError.Validation e)
  | Except.ok (input, output) =>
    match update_storage tx (input - output) s with
    | (Except.ok _, s1) => Except.ok s1
    | (Except.error _, _) => Except.error ExecError.DustOverflow

/-- One step of the minting loop of `spend_dust`: synthesize the payout
output for one authority (salted with the current block number) and insert
it unless its digest already exists (hash-collision fallback). -/
def mintShare (share : Value) (blockNumber : Nat) (s : State)
    (authority : H256) : State :=
  if (mapGet s.unspentOutputs
      (hash_of { value := share, pubkey := authority, salt := blockNumber })
      ).isSome then s
  else
    { s with
      unspentOutputs := mapInsert s.unspentOutputs
        (hash_of { value := share, pubkey := authority, salt := blockNumber })
        { value := share, pubkey := authority, salt := blockNumber } }

/-- `spend_dust` (source lines 166-199): take (read and clear) the dust
accumulator, divide by the number of authorities (`checked_div`; the
source `unwrap`s the `None` of an empty authority list into a panic,
embedded as `none`), return early when the share is zero, otherwise store
the remainder back and mint one payout output per authority. The `as
Value` cast of the `u128` multiplication is reduced modulo `2 ^ 128`. -/
def spend_dust (authorities : List H256) (s : State) : Option State :=
  let dust := s.dustTotal
  let s0 := { s with dustTotal := 0 }
  match checked_div dust authorities.length with
  | none => none
  | some dust_per_authority =>
    if dust_per_authority = 0 then some s0
    else
      match checked_sub dust
          ((dust_per_authority * authorities.length) % u128Max) with
      | none => none
      | some dust_remainder =>
        let s1 := { s0 with dustTotal := dust_remainder }
        some (authorities.foldl (mintShare dust_per_authority s.blockNumber) s1)

/-- `lock_utxo` (source lines 223-238): fails if the digest already has a
lock entry, fails if no live output exists at the digest, and for a
`LockedUntil` lock requires the unlock height to be strictly in the
future. -/
def lock_utxo (s : State) (hash : H256) (untilHeight : Option Nat) :
    Except LockError State :=
  if (mapGet s.lockedOutputs hash).isSome then
    Except.error LockError.AlreadyLocked
  else if ¬ (mapGet s.unspentOutputs hash).isSome then
    Except.error LockError.NotFound
  else
    match untilHeight with
    | some u =>
      if u > s.blockNumber then
        Except.ok
          { s with
            lockedOutputs :=
              mapInsert s.lockedOutputs hash (LockStatus.LockedUntil u) }
      else Except.error LockError.PastBlockHeight
    | none =>
      Except.ok
        { s with
          lockedOutputs := mapInsert s.lockedOutputs hash LockStatus.Locked }

/-- `unlock_utxo` (source lines 240-244), embedded exactly as written:
`ensure!(!<LockedOutputs<T>>::exists(hash), "utxo is not locked")` fails
precisely when a lock entry EXISTS (the guard is inverted relative to the
error message), and on the no-entry path the `remove` is a no-op and the
call succeeds. -/
def unlock_utxo (s : State) (hash : H256) : Except LockError State :=
  if (mapGet s.lockedOutputs hash).isSome then
    Except.error LockError.NotLocked
  else
    Except.ok { s with lockedOutputs := mapRemove s.lockedOutputs hash }

/-- Genesis state: the initial UTXO list is inserted keyed by digest
(`decl_storage!` build closure), the accumulator is zero, no locks, block
number zero. -/
def genesisState (initial_utxo : List TransactionOutput) : State :=
  { unspentOutputs :=
      initial_utxo.foldl (fun m u => mapInsert m (hash_of u) u) [],
    dustTotal := 0,
    lockedOutputs := [],
    blockNumber := 0 }

/-- Reachable module states: a genesis state, followed by any interleaving
of successful `execute` calls, lock-table operations, finalization
(`spend_dust`), and block-height advancement by the surrounding system. -/
inductive Reachable : State → Prop where
  | genesis (initial_utxo : List TransactionOutput) :
      Reachable (genesisState initial_utxo)
  | tx_step {s s1 : State} {tx : Transaction} :
      Reachable s → execute s tx = Except.ok s1 → Reachable s1
  | lock_step {s s1 : State} {h : H256} {u : Option Nat} :
      Reachable s → lock_utxo s h u = Except.ok s1 → Reachable s1
  | unlock_step {s s1 : State} {h : H256} :
      Reachable s → unlock_utxo s h = Except.ok s1 → Reachable s1
  | finalize_step {s s1 : State} {auths : List H256} :
      Reachable s → spend_dust auths s = some s1 → Reachable s1
  | next_block {s : State} :
      Reachable s → Reachable { s with blockNumber := s.blockNumber + 1 }

/-- The value of the output referenced by an input in the current store
(zero when the reference is dangling); used to state overflow-freedom of
the input pass. -/
def refValue (s : State) (inp : TransactionInput) : Value :=
  match mapGet s.unspentOutputs inp.parent_output with
  | some out => out.value
  | none => 0

/-- Whether an `execute` result is an invalid-signature rejection. -/
def isInvalidSigError (r : Except ExecError State) : Bool :=
  match r with
  | Except.error (ExecError.Validation (ValidationError.InvalidSignature _)) =>
    true
  | _ => false

/-- Whether an input's signature fails to verify against the owner key of
the output it references in the current store (false for a dangling
reference). -/
def sigInvalidFor (s : State) (inp : TransactionInput) : Bool :=
  match mapGet s.unspentOutputs inp.parent_output with
  | some out => ¬ ed25519_verify inp.signature inp.parent_output out.pubkey
  | none => false

/-! ### Concrete instances used by counterexamples and witnesses -/

/-- A two-unit output owned by key `raw 5`, salt 0. -/
def c1o : TransactionOutput := { value := 2, pubkey := H256.raw 5, salt := 0 }

/-- Digest of `c1o`. -/
def c1d : H256 := hash_of c1o

/-- A state whose dust accumulator already holds the largest `u128` value,
with `c1o` unspent. -/
def c1s : State :=
  { unspentOutputs := [(c1d, c1o)], dustTotal := u128Max - 1,
    lockedOutputs := [], blockNumber := 0 }

/-- A validly signed transaction spending `c1o` (value 2) into a one-unit
output: output total 1 is strictly below input total 2. -/
def c1tx : Transaction :=
  { inputs := [{ parent_output := c1d,
                 signature := H512.signed (H256.raw 5) c1d }],
    outputs := [{ value := 1, pubkey := H256.raw 5, salt := 1 }] }

/-- The state `c1s` with an empty dust accumulator. -/
def c1ws : State :=
  { unspentOutputs := [(c1d, c1o)], dustTotal := 0,
    lockedOutputs := [], blockNumber := 0 }

/-- An arbitrary state for exercising the empty-transaction checks. -/
def c2s : State :=
  { unspentOutputs := [], dustTotal := 0, lockedOutputs := [],
    blockNumber := 0 }

/-- A transaction with no inputs and no outputs. -/
def c2txEmpty : Transaction := { inputs := [], outputs := [] }

/-- A transaction with one (dangling) input and no outputs. -/
def c2txNoOut : Transaction :=
  { inputs := [{ parent_output := H256.raw 0, signature := H512.raw 0 }],
    outputs := [] }

/-- A state for exercising the dust-overflow guard of `update_storage`:
the accumulator holds the largest `u128` value. -/
def c10s : State :=
  { unspentOutputs := [(H256.raw 3, c1o)], dustTotal := u128Max - 1,
    lockedOutputs := [(H256.raw 4, LockStatus.Locked)], blockNumber := 7 }

/-- A transaction whose commit would have to remove and insert entries. -/
def c10tx : Transaction :=
  { inputs := [{ parent_output := H256.raw 3, signature := H512.raw 0 }],
    outputs := [{ value := 1, pubkey := H256.raw 5, salt := 9 }] }

/-- A five-unit output owned by key `raw 8`, salt 0. -/
def c4o : TransactionOutput := { value := 5, pubkey := H256.raw 8, salt := 0 }

/-- The same value and owner as `c4o` with a fresh salt. -/
def c4o2 : TransactionOutput :=
  { value := 5, pubkey := H256.raw 8, salt := 1 }

/-- Digest of `c4o`. -/
def c4d : H256 := hash_of c4o

/-- A store holding exactly `c4o`. -/
def c4s : State :=
  { unspentOutputs := [(c4d, c4o)], dustTotal := 0, lockedOutputs := [],
    blockNumber := 0 }

/-- The validly signed transaction spending `c4o` into `c4o2`. -/
def c4tx : Transaction :=
  { inputs := [{ parent_output := c4d,
                 signature := H512.signed (H256.raw 8) c4d }],
    outputs := [c4o2] }

/-- The state left by executing `c4tx` from `c4s`. -/
def c4s1 : State :=
  { unspentOutputs := [(hash_of c4o2, c4o2)], dustTotal := 0,
    lockedOutputs := [], blockNumber := 0 }

/-- A five-unit output owned by key `raw 9`, salt 0. -/
def c9o : TransactionOutput := { value := 5, pubkey := H256.raw 9, salt := 0 }

/-- Digest of `c9o`. -/
def c9d : H256 := hash_of c9o

/-- A store holding exactly `c9o`. -/
def c9s : State :=
  { unspentOutputs := [(c9d, c9o)], dustTotal := 0, lockedOutputs := [],
    blockNumber := 0 }

/-- A transaction whose single output is byte-identical to its spent
parent, so the created digest equals the consumed digest. -/
def c9tx : Transaction :=
  { inputs := [{ parent_output := c9d,
                 signature := H512.signed (H256.raw 9) c9d }],
    outputs := [c9o] }

/-- A one-unit output owned by key `raw 7`, salt 0. -/
def c8o : TransactionOutput := { value := 1, pubkey := H256.raw 7, salt := 0 }

/-- Digest of `c8o`. -/
def c8d : H256 := hash_of c8o

/-- Genesis state seeded with `c8o`. -/
def c8genesis : State := genesisState [c8o]

/-- `c8genesis` after `lock_utxo c8d (LockedUntil 1)`. -/
def c8locked : State :=
  { c8genesis with lockedOutputs := [(c8d, LockStatus.LockedUntil 1)] }

/-- `c8locked` one block later. -/
def c8b1 : State := { c8locked with blockNumber := 1 }

/-- `c8locked` two blocks later: the `LockedUntil 1` lock has expired, so
`c8o` is spendable again. -/
def c8b2 : State := { c8locked with blockNumber := 2 }

/-- The validly signed transaction spending `c8o` after its lock expired. -/
def c8tx : Transaction :=
  { inputs := [{ parent_output := c8d,
                 signature := H512.signed (H256.raw 7) c8d }],
    outputs := [{ value := 1, pubkey := H256.raw 7, salt := 1 }] }

/-- The state left by executing `c8tx` from `c8b2`: the parent output is
consumed, yet its stale lock-table entry survives. -/
def c8final : State :=
  { unspentOutputs :=
      [(hash_of { value := 1, pubkey := H256.raw 7, salt := 1 },
        { value := 1, pubkey := H256.raw 7, salt := 1 })],
    dustTotal := 0,
    lockedOutputs := [(c8d, LockStatus.LockedUntil 1)],
    blockNumber := 2 }

/-- A five-unit output owned by key `raw 10`, salt 0. -/
def c3o : TransactionOutput :=
  { value := 5, pubkey := H256.raw 10, salt := 0 }

/-- Digest of `c3o`. -/
def c3d : H256 := hash_of c3o

/-- A store holding exactly `c3o`. -/
def c3s : State :=
  { unspentOutputs := [(c3d, c3o)], dustTotal := 0, lockedOutputs := [],
    blockNumber := 0 }

/-- A transaction spending `c3o` whose single input carries a random
512-bit string instead of a signature by the owner; every other aspect of
the transaction is valid. -/
def c3tx : Transaction :=
  { inputs := [{ parent_output := c3d, signature := H512.raw 99 }],
    outputs := [{ value := 5, pubkey := H256.raw 10, salt := 1 }] }

/-- A state whose accumulator holds one unit of dust (less than the
number of authorities used against it). -/
def c5s : State :=
  { unspentOutputs := [], dustTotal := 1, lockedOutputs := [],
    blockNumber := 0 }

/-- A state whose accumulator holds five units of dust. -/
def c5ws : State :=
  { unspentOutputs := [], dustTotal := 5, lockedOutputs := [],
    blockNumber := 0 }

/-- A state whose lock table has an entry for digest `raw 0`. -/
def c6sLocked : State :=
  { unspentOutputs := [], dustTotal := 0,
    lockedOutputs := [(H256.raw 0, LockStatus.Locked)], blockNumber := 0 }

/-- A state whose lock table is empty. -/
def c6sFree : State :=
  { unspentOutputs := [], dustTotal := 0, lockedOutputs := [],
    blockNumber := 0 }

/-- A state holding 100 units of accumulated dust and an empty store. -/
def c7s : State :=
  { unspentOutputs := [], dustTotal := 100, lockedOutputs := [],
    blockNumber := 6 }

/-! ## Helper lemmas -/

theorem hash_of_inj {o1 o2 : TransactionOutput}
    (h : hash_of o1 = hash_of o2) : o1 = o2 := by
  cases o1 with
  | mk v1 k1 s1 =>
    cases o2 with
    | mk v2 k2 s2 =>
      simp only [hash_of, H256.hashOf.injEq] at h
      obtain ⟨h1, h2, h3⟩ := h
      simp [h1, h2, h3]

theorem mapGet_remove_self {α : Type} (m : List (H256 × α)) (k : H256) :
    mapGet (mapRemove m k) k = none := by
  induction m with
  | nil => rfl
  | cons p rest ih =>
    obtain ⟨k1, v⟩ := p
    by_cases hk : k1 = k <;> simp [mapRemove, mapGet, hk, ih]

theorem mapGet_remove_ne {α : Type} (m : List (H256 × α)) {k k1 : H256}
    (h : k1 ≠ k) : mapGet (mapRemove m k) k1 = mapGet m k1 := by
  induction m with
  | nil => rfl
  | cons p rest ih =>
    obtain ⟨k2, v⟩ := p
    have hne : ¬ k = k1 := fun hc => h hc.symm
    by_cases hk : k2 = k
    · simp [mapRemove, mapGet, hk, hne, ih]
    · by_cases hk1 : k2 = k1
      · simp [mapRemove, mapGet, hk, hk1, h]
      · simp [mapRemove, mapGet, hk, hk1, ih]

theorem mapGet_insert_self {α : Type} (m : List (H256 × α)) (k : H256)
    (v : α) : mapGet (mapInsert m k v) k = some v := by
  simp [mapInsert, mapGet]

theorem mapGet_insert_ne {α : Type} (m : List (H256 × α)) {k k1 : H256}
    (v : α) (h : k1 ≠ k) : mapGet (mapInsert m k v) k1 = mapGet m k1 := by
  have hne : ¬ k = k1 := fun hc => h hc.symm
  simp only [mapInsert, mapGet, if_neg hne]
  exact mapGet_remove_ne m h

theorem foldl_removeInput_dustTotal (l : List TransactionInput) (s : State) :
    (l.foldl removeInput s).dustTotal = s.dustTotal := by
  induction l generalizing s with
  | nil => rfl
  | cons i rest ih => simp [List.foldl_cons, ih, removeInput]

theorem foldl_insertOutput_dustTotal (l : List TransactionOutput)
    (s : State) : (l.foldl insertOutput s).dustTotal = s.dustTotal := by
  induction l generalizing s with
  | nil => rfl
  | cons o rest ih => simp [List.foldl_cons, ih, insertOutput]

theorem foldl_removeInput_lockedOutputs (l : List TransactionInput)
    (s : State) : (l.foldl removeInput s).lockedOutputs = s.lockedOutputs := by
  induction l generalizing s with
  | nil => rfl
  | cons i rest ih => simp [List.foldl_cons, ih, removeInput]

theorem foldl_insertOutput_lockedOutputs (l : List TransactionOutput)
    (s : State) : (l.foldl insertOutput s).lockedOutputs = s.lockedOutputs := by
  induction l generalizing s with
  | nil => rfl
  | cons o rest ih => simp [List.foldl_cons, ih, insertOutput]

theorem foldl_insertOutput_get_notmem {l : List TransactionOutput}
    {k : H256} (s : State) (h : ∀ o ∈ l, hash_of o ≠ k) :
    mapGet (l.foldl insertOutput s).unspentOutputs k =
      mapGet s.unspentOutputs k := by
  induction l generalizing s with
  | nil => rfl
  | cons o rest ih =>
    rw [List.foldl_cons, ih (insertOutput s o)
      (fun o1 ho1 => h o1 (List.mem_cons_of_mem o ho1))]
    exact mapGet_insert_ne _ _ (Ne.symm (h o (List.mem_cons_self o rest)))

theorem foldl_insertOutput_get_mem {l : List TransactionOutput}
    {o : TransactionOutput} (s : State) (h : o ∈ l) :
    mapGet (l.foldl insertOutput s).unspentOutputs (hash_of o) = some o := by
  induction l generalizing s with
  | nil => cases h
  | cons x rest ih =>
    rw [List.foldl_cons]
    by_cases hr : o ∈ rest
    · exact ih (insertOutput s x) hr
    · have hx : o = x := by
        cases List.mem_cons.mp h with
        | inl h1 => exact h1
        | inr h1 => exact absurd h1 hr
      subst hx
      rw [foldl_insertOutput_get_notmem (insertOutput s o)
        (fun o1 ho1 hc => hr (by rw [← hash_of_inj hc]; exact ho1))]
      exact mapGet_insert_self _ _ _

theorem foldl_removeInput_get {l : List TransactionInput} {k : H256}
    (s : State) :
    mapGet (l.foldl removeInput s).unspentOutputs k =
      if l.any (fun i => i.parent_output = k) then none
      else mapGet s.unspentOutputs k := by
  induction l generalizing s with
  | nil => simp
  | cons i rest ih =>
    rw [List.foldl_cons, ih (removeInput s i)]
    by_cases hk : i.parent_output = k
    · subst hk
      by_cases hr : rest.any (fun i1 => i1.parent_output = i.parent_output) <;>
        simp [hr, removeInput, mapGet_remove_self]
    · by_cases hr : rest.any (fun i1 => i1.parent_output = k) <;>
        simp [hr, hk, removeInput, mapGet_remove_ne _ (fun hc => hk hc.symm)]

theorem foldl_mintShare_dustTotal (share : Value) (bn : Nat)
    (l : List H256) (s : State) :
    (l.foldl (mintShare share bn) s).dustTotal = s.dustTotal := by
  induction l generalizing s with
  | nil => rfl
  | cons a rest ih =>
    rw [List.foldl_cons, ih]
    simp only [mintShare]
    split <;> rfl

theorem foldl_mintShare_get_not (share : Value) (bn : Nat)
    (l : List H256) (s : State) (k : H256)
    (h : ∀ b ∈ l, hash_of ⟨share, b, bn⟩ ≠ k) :
    mapGet (l.foldl (mintShare share bn) s).unspentOutputs k =
      mapGet s.unspentOutputs k := by
  induction l generalizing s with
  | nil => rfl
  | cons b rest ih =>
    rw [List.foldl_cons, ih _ (fun c hc => h c (List.mem_cons_of_mem b hc))]
    simp only [mintShare]
    split
    · rfl
    · exact mapGet_insert_ne _ _ (Ne.symm (h b (List.mem_cons_self b rest)))

theorem foldl_mintShare_get (share : Value) (bn : Nat) :
    ∀ (l : List H256) (s : State) (a : H256), l.Nodup → a ∈ l →
    (∀ b ∈ l, mapGet s.unspentOutputs (hash_of ⟨share, b, bn⟩) = none) →
    mapGet (l.foldl (mintShare share bn) s).unspentOutputs
      (hash_of ⟨share, a, bn⟩) = some ⟨share, a, bn⟩ := by
  intro l
  induction l with
  | nil =>
    intro s a _ ha _
    cases ha
  | cons b rest ih =>
    intro s a hnd ha hfresh
    have hbnr : b ∉ rest := (List.nodup_cons.mp hnd).1
    have hb : mintShare share bn s b =
        { s with
          unspentOutputs := mapInsert s.unspentOutputs
            (hash_of ⟨share, b, bn⟩) ⟨share, b, bn⟩ } := by
      simp [mintShare, hfresh b (List.mem_cons_self b rest)]
    rw [List.foldl_cons, hb]
    by_cases hab : a = b
    · subst hab
      rw [foldl_mintShare_get_not share bn rest _ _
        (fun c hc hk => hbnr (by
          rw [← show c = a from
            congrArg TransactionOutput.pubkey (hash_of_inj hk)]
          exact hc))]
      exact mapGet_insert_self _ _ _
    · have har : a ∈ rest := by
        cases List.mem_cons.mp ha with
        | inl h1 => exact absurd h1 hab
        | inr h1 => exact h1
      refine ih _ a (List.nodup_cons.mp hnd).2 har ?_
      intro c hc
      rw [show ({ s with
          unspentOutputs := mapInsert s.unspentOutputs
            (hash_of ⟨share, b, bn⟩) ⟨share, b, bn⟩ } : State).unspentOutputs =
        mapInsert s.unspentOutputs (hash_of ⟨share, b, bn⟩) ⟨share, b, bn⟩
        from rfl]
      rw [mapGet_insert_ne _ _ (fun hk => hbnr (by
        rw [← show c = b from
          congrArg TransactionOutput.pubkey (hash_of_inj hk)]
        exact hc))]
      exact hfresh c (List.mem_cons_of_mem b hc)

theorem spend_dust_shape (auths : List H256) (s : State)
    (hn : auths.length ≠ 0) (hz : s.dustTotal / auths.length ≠ 0)
    (hv : s.dustTotal < u128Max) :
    spend_dust auths s = some (auths.foldl
      (mintShare (s.dustTotal / auths.length) s.blockNumber)
      { s with dustTotal := s.dustTotal % auths.length }) := by
  have hmul_le : s.dustTotal / auths.length * auths.length ≤ s.dustTotal :=
    Nat.div_mul_le_self _ _
  have hmod : (s.dustTotal / auths.length * auths.length) % u128Max =
      s.dustTotal / auths.length * auths.length :=
    Nat.mod_eq_of_lt (lt_of_le_of_lt hmul_le hv)
  have hrem : s.dustTotal - s.dustTotal / auths.length * auths.length =
      s.dustTotal % auths.length := by
    have hdm := Nat.div_add_mod s.dustTotal auths.length
    rw [Nat.mul_comm] at hdm
    exact Nat.sub_eq_of_eq_add (by rw [Nat.add_comm] at hdm; exact hdm.symm)
  simp [spend_dust, checked_div, hn, hz, checked_sub, hmod, hmul_le, hrem]

theorem inputTotals_invalid_sig (s : State) :
    ∀ (l : List TransactionInput) (acc : Value),
    (∀ inp ∈ l, (mapGet s.unspentOutputs inp.parent_output).isSome = true) →
    (∀ inp ∈ l, spendableAt s.blockNumber
      (mapGet s.lockedOutputs inp.parent_output) = true) →
    acc + (l.map (refValue s)).sum < u128Max →
    (∃ inp ∈ l, sigInvalidFor s inp = true) →
    ∃ d, inputTotals s l acc =
      Except.error (ValidationError.InvalidSignature d) := by
  intro l
  induction l with
  | nil =>
    intro acc _ _ _ hbad
    obtain ⟨inp, hin, _⟩ := hbad
    cases hin
  | cons i rest ih =>
    intro acc hres hlock hsum hbad
    cases hout : mapGet s.unspentOutputs i.parent_output with
    | none =>
      have hc := hres i (List.mem_cons_self i rest)
      rw [hout] at hc
      cases hc
    | some out =>
      have hl := hlock i (List.mem_cons_self i rest)
      by_cases hsig :
          ed25519_verify i.signature i.parent_output out.pubkey = true
      · have hsum1 : acc + (refValue s i +
            (rest.map (refValue s)).sum) < u128Max := by
          simpa [List.map_cons, List.sum_cons] using hsum
        have hval : refValue s i = out.value := by simp [refValue, hout]
        rw [hval] at hsum1
        have hlt : acc + out.value < u128Max :=
          lt_of_le_of_lt
            (Nat.add_le_add_left (Nat.le_add_right _ _) acc) hsum1
        have hadd : checked_add acc out.value = some (acc + out.value) := by
          unfold checked_add
          rw [if_pos hlt]
        have hbad1 : ∃ inp ∈ rest, sigInvalidFor s inp = true := by
          obtain ⟨j, hj, hjbad⟩ := hbad
          cases List.mem_cons.mp hj with
          | inl hji =>
            rw [hji] at hjbad
            rw [show sigInvalidFor s i = false by
              simp [sigInvalidFor, hout, hsig]] at hjbad
            cases hjbad
          | inr hjr => exact ⟨j, hjr, hjbad⟩
        have hrec := ih (acc + out.value)
          (fun inp hin => hres inp (List.mem_cons_of_mem i hin))
          (fun inp hin => hlock inp (List.mem_cons_of_mem i hin))
          (by rw [Nat.add_assoc]; exact hsum1) hbad1
        obtain ⟨d, hd⟩ := hrec
        refine ⟨d, ?_⟩
        simp only [inputTotals, hout, hl, if_true, hsig, hadd]
        exact hd
      · refine ⟨i.parent_output, ?_⟩
        simp [inputTotals, hout, hl, hsig]

theorem execute_ok_shape {s s1 : State} {tx : Transaction}
    (h : execute s tx = Except.ok s1) :
    ∃ dt, s1 = tx.outputs.foldl insertOutput
      (tx.inputs.foldl removeInput { s with dustTotal := dt }) := by
  cases hv : verify_transaction s tx with
  | error e => simp [execute, hv] at h
  | ok p =>
    obtain ⟨i, o⟩ := p
    cases hc : checked_add s.dustTotal (i - o) with
    | none => simp [execute, hv, update_storage, hc] at h
    | some dt =>
      simp [execute, hv, update_storage, hc] at h
      exact ⟨dt, h.symm⟩

/-! ## Claim theorems -/

/-- C10: when the dust accumulator plus the transaction dust does not fit
in a `u128`, `update_storage` returns the dust-overflow error before
performing any write: the returned storage state is exactly the input
state, so the dust accumulator, the unspent-output store and the lock
table are all unchanged. -/
theorem update_storage_overflow_no_write (s : State) (tx : Transaction)
    (dust : Value) (h : ¬ s.dustTotal + dust < u128Max) :
    update_storage tx dust s = (Except.error StorageError.DustOverflow, s) ∧
    (update_storage tx dust s).2.dustTotal = s.dustTotal ∧
    (update_storage tx dust s).2.unspentOutputs = s.unspentOutputs ∧
    (update_storage tx dust s).2.lockedOutputs = s.lockedOutputs := by
  have h1 : update_storage tx dust s =
      (Except.error StorageError.DustOverflow, s) := by
    simp [update_storage, checked_add, h]
  exact ⟨h1, by rw [h1], by rw [h1], by rw [h1]⟩

/-- Witness for C10: a full accumulator plus one unit overflows, and the
state comes back untouched. -/
theorem update_storage_overflow_no_write_w :
    ¬ (c10s.dustTotal + 1 < u128Max) ∧
    update_storage c10tx 1 c10s =
      (Except.error StorageError.DustOverflow, c10s) :=
  ⟨by decide, (update_storage_overflow_no_write c10s c10tx 1 (by decide)).1⟩

/-- C2: a transaction with an empty input list is rejected by `execute`
with `EmptyInputs` (source string `no inputs`); one with inputs but an
empty output list is rejected with `EmptyOutputs` (source string
`no outputs`). -/
theorem execute_empty_checks (s : State) (tx : Transaction) :
    (tx.inputs = [] →
      execute s tx =
        Except.error (ExecError.Validation ValidationError.EmptyInputs)) ∧
    (tx.inputs ≠ [] → tx.outputs = [] →
      execute s tx =
        Except.error (ExecError.Validation ValidationError.EmptyOutputs)) := by
  constructor
  · intro h
    simp [execute, verify_transaction, computeTotals, h]
  · intro h1 h2
    simp [execute, verify_transaction, computeTotals, h1, h2]

/-- Witness for C2: the two rejections at concrete transactions. -/
theorem execute_empty_checks_w :
    execute c2s c2txEmpty =
      Except.error (ExecError.Validation ValidationError.EmptyInputs) ∧
    (c2txNoOut.inputs ≠ [] ∧
      execute c2s c2txNoOut =
        Except.error (ExecError.Validation ValidationError.EmptyOutputs)) :=
  ⟨(execute_empty_checks c2s c2txEmpty).1 rfl,
    by decide,
    (execute_empty_checks c2s c2txNoOut).2 (by decide) rfl⟩

/-- C1 (amended): with the verifier's totals `(i, o)` computed, an output
total strictly above the input total is rejected `Overspend`; otherwise,
when the accumulator plus the dust `i - o` does not fit in a `u128`,
`execute` fails with the dust-overflow error; and when it fits, `execute`
succeeds and the accumulator grows by exactly `i - o` (zero when the
totals are equal). -/
theorem execute_conservation_amended (s : State) (tx : Transaction)
    (i o : Value)
    (h : computeTotals s tx = Except.ok (i, o)) :
    (i < o →
      execute s tx =
        Except.error (ExecError.Validation ValidationError.Overspend)) ∧
    (o ≤ i → ¬ s.dustTotal + (i - o) < u128Max →
      execute s tx = Except.error ExecError.DustOverflow) ∧
    (o ≤ i → s.dustTotal + (i - o) < u128Max →
      (execute s tx).toOption.map State.dustTotal =
        some (s.dustTotal + (i - o))) := by
  refine ⟨?_, ?_, ?_⟩
  · intro hlt
    have hnle : ¬ o ≤ i := not_le.mpr hlt
    simp [execute, verify_transaction, h, hnle]
  · intro hle hov
    simp [execute, verify_transaction, h, hle, update_storage, checked_add,
      hov]
  · intro hle hok
    have hrun : execute s tx = Except.ok
        (tx.outputs.foldl insertOutput
          (tx.inputs.foldl removeInput
            { s with dustTotal := s.dustTotal + (i - o) })) := by
      simp [execute, verify_transaction, h, hle, update_storage, checked_add,
        hok]
    rw [hrun]
    simp [Except.toOption, foldl_insertOutput_dustTotal,
      foldl_removeInput_dustTotal]

/-- Counterexample for C1 as stated: in `c1s` the accumulator already
holds the largest `u128` value; the transaction `c1tx` has input total 2
and output total 1, so the claim asserts success, but `execute` fails with
the dust-overflow error. -/
theorem execute_conservation_cex :
    computeTotals c1s c1tx = Except.ok (2, 1) ∧
    execute c1s c1tx = Except.error ExecError.DustOverflow :=
  ⟨rfl, rfl⟩

/-- Witness for C1: with an empty accumulator the same spend succeeds and
credits exactly `2 - 1 = 1` unit of dust. -/
theorem execute_conservation_w :
    computeTotals c1ws c1tx = Except.ok (2, 1) ∧
    (execute c1ws c1tx).toOption.map State.dustTotal =
      some (c1ws.dustTotal + (2 - 1)) :=
  ⟨rfl,
    (execute_conservation_amended c1ws c1tx 2 1 rfl).2.2
      (by decide) (by decide)⟩

/-- C4: spending an output of value `V` owned by `K` into a single new
output of the same value and owner under a fresh salt: whenever `execute`
succeeds, the parent digest has been removed from the unspent-output store
and the digest of the new output is present, mapped to the new output. -/
theorem execute_spend_updates_store (V : Value) (K : H256) (sa sb : Nat)
    (sig : Signature) (s s1 : State)
    (hsalt : sa ≠ sb)
    (hstore : mapGet s.unspentOutputs (hash_of ⟨V, K, sa⟩) =
      some ⟨V, K, sa⟩)
    (hsig : sig = H512.signed K (hash_of ⟨V, K, sa⟩))
    (hex : execute s { inputs := [⟨hash_of ⟨V, K, sa⟩, sig⟩],
                       outputs := [⟨V, K, sb⟩] } = Except.ok s1) :
    mapGet s1.unspentOutputs (hash_of ⟨V, K, sa⟩) = none ∧
    mapGet s1.unspentOutputs (hash_of ⟨V, K, sb⟩) =
      some ⟨V, K, sb⟩ := by
  obtain ⟨dt, rfl⟩ := execute_ok_shape hex
  have hne : hash_of (⟨V, K, sa⟩ : TransactionOutput) ≠
      hash_of (⟨V, K, sb⟩ : TransactionOutput) := by
    intro hc
    exact hsalt (congrArg TransactionOutput.salt (hash_of_inj hc))
  constructor
  · rw [List.foldl_cons, List.foldl_nil, List.foldl_cons, List.foldl_nil]
    rw [show insertOutput (removeInput { s with dustTotal := dt }
        ⟨hash_of ⟨V, K, sa⟩, sig⟩) ⟨V, K, sb⟩ =
      { removeInput { s with dustTotal := dt } ⟨hash_of ⟨V, K, sa⟩, sig⟩ with
        unspentOutputs := mapInsert (mapRemove s.unspentOutputs
          (hash_of ⟨V, K, sa⟩)) (hash_of ⟨V, K, sb⟩) ⟨V, K, sb⟩ } from rfl]
    rw [mapGet_insert_ne _ _ hne]
    exact mapGet_remove_self _ _
  · rw [List.foldl_cons, List.foldl_nil, List.foldl_cons, List.foldl_nil]
    exact mapGet_insert_self _ _ _

/-- Witness for C4: the concrete spend of `c4o` into `c4o2` succeeds and
leaves the parent digest absent and the new digest present. -/
theorem execute_spend_updates_store_w :
    (0 : Nat) ≠ 1 ∧
    execute c4s c4tx = Except.ok c4s1 ∧
    mapGet c4s1.unspentOutputs c4d = none ∧
    mapGet c4s1.unspentOutputs (hash_of c4o2) = some c4o2 :=
  ⟨by decide, rfl,
    (execute_spend_updates_store 5 (H256.raw 8) 0 1
      (H512.signed (H256.raw 8) c4d) c4s c4s1 (by decide) rfl rfl rfl).1,
    (execute_spend_updates_store 5 (H256.raw 8) 0 1
      (H512.signed (H256.raw 8) c4d) c4s c4s1 (by decide) rfl rfl rfl).2⟩

/-- C9: `update_storage` removes all parent digests before inserting any
output, so after a successful `execute` every output of the transaction is
present in the store at its digest — including an output whose digest
coincides with a digest consumed by the same transaction. -/
theorem execute_inserts_outputs (s s1 : State) (tx : Transaction)
    (o : TransactionOutput) (hex : execute s tx = Except.ok s1)
    (ho : o ∈ tx.outputs) :
    mapGet s1.unspentOutputs (hash_of o) = some o := by
  obtain ⟨dt, rfl⟩ := execute_ok_shape hex
  exact foldl_insertOutput_get_mem _ ho

/-- Witness for C9: a transaction whose output is byte-identical to its
spent parent — the digest it consumes is the digest it creates — executes
successfully and leaves that digest mapped to the new output. -/
theorem execute_inserts_outputs_w :
    execute c9s c9tx = Except.ok c9s ∧
    c9o ∈ c9tx.outputs ∧
    mapGet c9s.unspentOutputs (hash_of c9o) = some c9o :=
  ⟨rfl, by decide,
    execute_inserts_outputs c9s c9s c9tx c9o rfl (by decide)⟩

/-- C8 (amended): committing a transaction never touches the lock table —
`update_storage` clears no lock entries, so a consumed digest keeps any
entry it had. The original invariant (an entry exists only while its
restriction is active) fails; see the reachable counterexample. -/
theorem execute_preserves_locks (s s1 : State) (tx : Transaction)
    (hex : execute s tx = Except.ok s1) :
    s1.lockedOutputs = s.lockedOutputs := by
  obtain ⟨dt, rfl⟩ := execute_ok_shape hex
  rw [foldl_insertOutput_lockedOutputs, foldl_removeInput_lockedOutputs]

/-- Witness for C8: the concrete post-lock spend keeps the lock table of
its pre-state verbatim. -/
theorem execute_preserves_locks_w :
    execute c8b2 c8tx = Except.ok c8final ∧
    c8final.lockedOutputs = c8b2.lockedOutputs :=
  ⟨rfl, execute_preserves_locks c8b2 c8final c8tx rfl⟩

/-- Counterexample for C8 as stated: a reachable state (genesis with
`c8o`, lock it until height 1, advance two blocks, spend it) in which the
consumed digest `c8d` is gone from the unspent-output store yet still has
a lock-table entry — the claimed invariant does not hold. -/
theorem lock_survives_spend_cex :
    Reachable c8final ∧
    (mapGet c8final.lockedOutputs c8d).isSome = true ∧
    mapGet c8final.unspentOutputs c8d = none := by
  refine ⟨?_, by decide, by decide⟩
  have h0 : Reachable c8genesis := Reachable.genesis [c8o]
  have h1 : Reachable c8locked :=
    @Reachable.lock_step c8genesis c8locked c8d (some 1) h0 rfl
  have h2 : Reachable c8b1 := Reachable.next_block h1
  have h3 : Reachable c8b2 := Reachable.next_block h2
  exact @Reachable.tx_step c8b2 c8final c8tx h3 rfl

/-- C3: a transaction none of whose structural checks fail (nonempty,
no duplicates), all of whose inputs resolve to live unlocked outputs with
a representable total, but at least one of whose inputs carries a
signature that does not verify against the referenced output's owner key,
is rejected by `execute` with `InvalidSignature`. -/
theorem execute_invalid_signature (s : State) (tx : Transaction)
    (hne : tx.inputs ≠ []) (hno : tx.outputs ≠ [])
    (hdi : (tx.inputs.map TransactionInput.parent_output).Nodup)
    (hdo : (tx.outputs.map hash_of).Nodup)
    (hres : ∀ inp ∈ tx.inputs,
      (mapGet s.unspentOutputs inp.parent_output).isSome = true)
    (hlock : ∀ inp ∈ tx.inputs, spendableAt s.blockNumber
      (mapGet s.lockedOutputs inp.parent_output) = true)
    (hsum : (tx.inputs.map (refValue s)).sum < u128Max)
    (hbad : ∃ inp ∈ tx.inputs, sigInvalidFor s inp = true) :
    isInvalidSigError (execute s tx) = true := by
  obtain ⟨d, hd⟩ := inputTotals_invalid_sig s tx.inputs 0 hres hlock
    (by simpa using hsum) hbad
  simp [execute, verify_transaction, computeTotals, hne, hno, hdi, hdo, hd,
    isInvalidSigError]

/-- Witness for C3: a transaction spending `c3o` with a random 512-bit
string as signature, all other parts valid, is rejected as an invalid
signature. -/
theorem execute_invalid_signature_w :
    (∃ inp ∈ c3tx.inputs, sigInvalidFor c3s inp = true) ∧
    isInvalidSigError (execute c3s c3tx) = true :=
  ⟨by decide,
    execute_invalid_signature c3s c3tx (by decide) (by decide) (by decide)
      (by decide) (by decide) (by decide) (by decide) (by decide)⟩

/-- C5 (amended): for a nonempty authority list, when the integer share
`dust / len` is nonzero the accumulator afterwards holds exactly
`dust % len`; but when the share is zero (`0 < dust < len`) the code
returns after the read-and-clear without storing the remainder back, so
the accumulator holds 0 — the undistributed dust is dropped, not carried
forward — and no outputs are minted. -/
theorem spend_dust_remainder_amended (auths : List H256) (s : State)
    (hne : auths ≠ []) (hv : s.dustTotal < u128Max) :
    (spend_dust auths s).map State.dustTotal =
      some (if s.dustTotal / auths.length = 0 then 0
            else s.dustTotal % auths.length) ∧
    (s.dustTotal / auths.length = 0 →
      (spend_dust auths s).map State.unspentOutputs =
        some s.unspentOutputs) := by
  have hn : auths.length ≠ 0 := fun h0 => hne (List.length_eq_zero.mp h0)
  by_cases hz : s.dustTotal / auths.length = 0
  · constructor
    · simp [spend_dust, checked_div, hn, hz]
    · intro _
      simp [spend_dust, checked_div, hn, hz]
  · have hmul_le : s.dustTotal / auths.length * auths.length ≤ s.dustTotal :=
      Nat.div_mul_le_self _ _
    have hmod : (s.dustTotal / auths.length * auths.length) % u128Max =
        s.dustTotal / auths.length * auths.length :=
      Nat.mod_eq_of_lt (lt_of_le_of_lt hmul_le hv)
    have hrem : s.dustTotal - s.dustTotal / auths.length * auths.length =
        s.dustTotal % auths.length := by
      have hdm := Nat.div_add_mod s.dustTotal auths.length
      rw [Nat.mul_comm] at hdm
      exact Nat.sub_eq_of_eq_add (by rw [Nat.add_comm] at hdm; exact hdm.symm)
    constructor
    · simp [spend_dust, checked_div, hn, hz, checked_sub, hmod, hmul_le,
        foldl_mintShare_dustTotal, hrem]
    · intro hcontra
      exact absurd hcontra hz

/-- Counterexample for C5 as stated: one unit of dust and two authorities
(`0 < dust < len`, integer share zero): the claim demands that the
accumulator afterwards hold `1 % 2 = 1`, but `spend_dust` leaves it at 0. -/
theorem spend_dust_share_zero_cex :
    (spend_dust [H256.raw 0, H256.raw 1] c5s).map State.dustTotal =
      some 0 ∧
    c5s.dustTotal % ([H256.raw 0, H256.raw 1] : List H256).length = 1 ∧
    ((spend_dust [H256.raw 0, H256.raw 1] c5s).map State.dustTotal ==
      some (c5s.dustTotal %
        ([H256.raw 0, H256.raw 1] : List H256).length)) = false :=
  ⟨rfl, rfl, rfl⟩

/-- Witness for C5: five units of dust over two authorities leave
`5 % 2 = 1` in the accumulator. -/
theorem spend_dust_remainder_w :
    ([H256.raw 0, H256.raw 1] : List H256) ≠ [] ∧
    c5ws.dustTotal < u128Max ∧
    (spend_dust [H256.raw 0, H256.raw 1] c5ws).map State.dustTotal =
      some (if c5ws.dustTotal /
          ([H256.raw 0, H256.raw 1] : List H256).length = 0 then 0
        else c5ws.dustTotal %
          ([H256.raw 0, H256.raw 1] : List H256).length) :=
  ⟨by decide, by decide,
    (spend_dust_remainder_amended [H256.raw 0, H256.raw 1] c5ws
      (by decide) (by decide)).1⟩

/-- C6: `unlock_utxo` evaluated at both kinds of input, exhibiting the
inverted guard: for a digest WITH a lock entry it fails with the
not-locked error (the claim — and the evident intent — demand success and
removal), and for a digest WITHOUT an entry it succeeds as a no-op (the
claim demands the `NotLocked` failure). -/
theorem unlock_utxo_guard_inverted :
    (mapGet c6sLocked.lockedOutputs (H256.raw 0)).isSome = true ∧
    unlock_utxo c6sLocked (H256.raw 0) =
      Except.error LockError.NotLocked ∧
    mapGet c6sFree.lockedOutputs (H256.raw 0) = none ∧
    unlock_utxo c6sFree (H256.raw 0) = Except.ok c6sFree :=
  ⟨rfl, rfl, rfl, rfl⟩

/-- C7: with 100 units of dust and three pairwise distinct authorities
whose payout digests are absent from the store, each authority receives a
freshly minted output of value 33 (salted with the block number), and the
accumulator retains the remainder 1. -/
theorem spend_dust_three_authorities (a1 a2 a3 : H256) (s : State)
    (h12 : a1 ≠ a2) (h13 : a1 ≠ a3) (h23 : a2 ≠ a3)
    (hd : s.dustTotal = 100)
    (h1 : mapGet s.unspentOutputs
      (hash_of ⟨33, a1, s.blockNumber⟩) = none)
    (h2 : mapGet s.unspentOutputs
      (hash_of ⟨33, a2, s.blockNumber⟩) = none)
    (h3 : mapGet s.unspentOutputs
      (hash_of ⟨33, a3, s.blockNumber⟩) = none) :
    (spend_dust [a1, a2, a3] s).map State.dustTotal = some 1 ∧
    (spend_dust [a1, a2, a3] s).map (fun t =>
      mapGet t.unspentOutputs (hash_of ⟨33, a1, s.blockNumber⟩)) =
      some (some ⟨33, a1, s.blockNumber⟩) ∧
    (spend_dust [a1, a2, a3] s).map (fun t =>
      mapGet t.unspentOutputs (hash_of ⟨33, a2, s.blockNumber⟩)) =
      some (some ⟨33, a2, s.blockNumber⟩) ∧
    (spend_dust [a1, a2, a3] s).map (fun t =>
      mapGet t.unspentOutputs (hash_of ⟨33, a3, s.blockNumber⟩)) =
      some (some ⟨33, a3, s.blockNumber⟩) := by
  have hlen : ([a1, a2, a3] : List H256).length = 3 := rfl
  have hnd : ([a1, a2, a3] : List H256).Nodup := by
    simp [List.nodup_cons, List.mem_cons, h12, h13, h23]
  have hfresh : ∀ b ∈ ([a1, a2, a3] : List H256),
      mapGet s.unspentOutputs
        (hash_of ⟨33, b, s.blockNumber⟩) = none := by
    intro b hb
    rcases List.mem_cons.mp hb with rfl | hb1
    · exact h1
    rcases List.mem_cons.mp hb1 with rfl | hb2
    · exact h2
    rcases List.mem_cons.mp hb2 with rfl | hb3
    · exact h3
    · cases hb3
  have hshape := spend_dust_shape [a1, a2, a3] s
    (by rw [hlen]; decide) (by rw [hlen, hd]; decide) (by rw [hd]; decide)
  rw [hlen, hd, show (100 : Nat) / 3 = 33 from rfl,
    show (100 : Nat) % 3 = 1 from rfl] at hshape
  rw [hshape]
  refine ⟨?_, ?_, ?_, ?_⟩
  · exact congrArg some (foldl_mintShare_dustTotal 33 s.blockNumber
      [a1, a2, a3] { s with dustTotal := 1 })
  · exact congrArg some (foldl_mintShare_get 33 s.blockNumber [a1, a2, a3]
      { s with dustTotal := 1 } a1 hnd (by simp) hfresh)
  · exact congrArg some (foldl_mintShare_get 33 s.blockNumber [a1, a2, a3]
      { s with dustTotal := 1 } a2 hnd (by simp) hfresh)
  · exact congrArg some (foldl_mintShare_get 33 s.blockNumber [a1, a2, a3]
      { s with dustTotal := 1 } a3 hnd (by simp) hfresh)

/-- Witness for C7: three concrete authorities, 100 units of dust: each
receives value 33 and the accumulator holds 1. -/
theorem spend_dust_three_authorities_w :
    c7s.dustTotal = 100 ∧
    (spend_dust [H256.raw 0, H256.raw 1, H256.raw 2] c7s).map
      State.dustTotal = some 1 ∧
    (spend_dust [H256.raw 0, H256.raw 1, H256.raw 2] c7s).map (fun t =>
      mapGet t.unspentOutputs
        (hash_of ⟨33, H256.raw 0, c7s.blockNumber⟩)) =
      some (some ⟨33, H256.raw 0, c7s.blockNumber⟩) :=
  ⟨rfl,
    (spend_dust_three_authorities (H256.raw 0) (H256.raw 1) (H256.raw 2)
      c7s (by decide) (by decide) (by decide) rfl rfl rfl rfl).1,
    (spend_dust_three_authorities (H256.raw 0) (H256.raw 1) (H256.raw 2)
      c7s (by decide) (by decide) (by decide) rfl rfl rfl rfl).2.1⟩

end Utxo
